import Mathlib

/-!
Shallow embedding of the Okis expense planner (`Main.py`).

Modelling conventions:
* Python `float` amounts and budgets are modelled as exact rationals (`ℚ`).
* `datetime.date` is modelled by `PyDate` (year/month/day) with Python's
  lexicographic ordering; `date(...)` construction and `date.replace(day=...)`
  validate the day against the Gregorian month length exactly as CPython does.
* `str.strip()` is modelled by `pyStrip` (drop leading and trailing whitespace).
* The process-wide clock (`date.today()`) and the uuid generator are external
  dependencies; they enter the embedding as explicit parameters `today`/`newId`.
* Every planner method is a state transformer
  `ExpensePlanner → ... → Except String α × ExpensePlanner` returning the result
  (or the raised `ValueError` message) together with the planner state after the
  call; Python raises before any mutation, so the error branches return the
  input state unchanged.
* A Python `dict` with insertion order (used by `get_category_statistics`)
  is modelled as an association list updated in place by `statUpdate`.
-/

namespace Okis

/-- Python `str.strip()`: remove leading and trailing whitespace. -/
def pyStrip (s : String) : String :=
  String.mk (((s.data.dropWhile Char.isWhitespace).reverse.dropWhile Char.isWhitespace).reverse)

/-- A calendar date as in `datetime.date` (fields as stored by CPython). -/
structure PyDate where
  year : Nat
  month : Nat
  day : Nat
deriving DecidableEq, Repr

namespace PyDate

/-- Python date ordering is lexicographic on (year, month, day): `a <= b`. -/
def ble (a b : PyDate) : Bool :=
  decide (a.year < b.year) ||
    (decide (a.year = b.year) &&
      (decide (a.month < b.month) ||
        (decide (a.month = b.month) && decide (a.day ≤ b.day))))

/-- Python date ordering, strict: `a < b`. -/
def blt (a b : PyDate) : Bool :=
  decide (a.year < b.year) ||
    (decide (a.year = b.year) &&
      (decide (a.month < b.month) ||
        (decide (a.month = b.month) && decide (a.day < b.day))))

end PyDate

/-- Gregorian leap-year rule used by `datetime.date` validation. -/
def isLeapYear (y : Nat) : Bool :=
  decide (y % 4 = 0) && (decide (y % 100 ≠ 0) || decide (y % 400 = 0))

/-- Number of days in a month, as used by `datetime.date` validation. -/
def daysInMonth (y m : Nat) : Nat :=
  if m = 2 then (if isLeapYear y then 29 else 28)
  else if m = 4 ∨ m = 6 ∨ m = 9 ∨ m = 11 then 30
  else 31

/-- Constructor `datetime.date(year, month, day)`: validates ranges exactly as CPython
(`MINYEAR = 1`, `MAXYEAR = 9999`) and raises `ValueError` otherwise. -/
def mkPyDate (y m d : Nat) : Except String PyDate :=
  if ¬ (1 ≤ y ∧ y ≤ 9999) then .error "year is out of range"
  else if ¬ (1 ≤ m ∧ m ≤ 12) then .error "month must be in 1..12"
  else if ¬ (1 ≤ d ∧ d ≤ daysInMonth y m) then .error "day is out of range for month"
  else .ok ⟨y, m, d⟩

/-- Python `date.replace(day=d)`: revalidates the new day like the constructor. -/
def PyDate.replaceDay (dt : PyDate) (d : Nat) : Except String PyDate :=
  mkPyDate dt.year dt.month d

/-- The closed `Category` enum of `Main.py`. -/
inductive Category where
  | food
  | transport
  | entertainment
  | utilities
  | health
  | education
  | other
deriving DecidableEq, Repr

/-- One recorded expense, after successful validation in `Expense.__init__`. -/
structure Expense where
  id : String
  description : String
  amount : ℚ
  category : Category
  date : PyDate
deriving DecidableEq, Repr

/-- Constructor `Expense.__init__(description, amount, category, expense_date)`.
`today` models `date.today()` and `newId` models `str(uuid.uuid4())`; the
`isinstance(category, Category)` check is enforced by the Lean type of
`category`. -/
def Expense.make (description : String) (amount : ℚ) (category : Category)
    (expense_date : PyDate) (today : PyDate) (newId : String) : Except String Expense :=
  if description = "" ∨ pyStrip description = "" then .error "Description cannot be empty"
  else if amount ≤ 0 then .error "Amount must be positive"
  else if PyDate.blt today expense_date then .error "Expense date cannot be in the future"
  else .ok { id := newId, description := pyStrip description, amount := amount,
             category := category, date := expense_date }

/-- The `ExpensePlanner` state: the ordered expense list, the category-budget
map (total over the closed enum, as `_initialize_category_budgets` fills every
category), and the single monthly budget. -/
structure ExpensePlanner where
  _expenses : List Expense
  _category_budgets : Category → ℚ
  _monthly_budget : ℚ

/-- Constructor `ExpensePlanner.__init__`: empty list, all category budgets 0.0,
monthly budget 0.0. -/
def ExpensePlanner.init : ExpensePlanner :=
  { _expenses := [], _category_budgets := fun _ => 0, _monthly_budget := 0 }

/-- Method `add_expense`: construct the `Expense` (propagating validation failures
with the state untouched) and append it; return its id. -/
def add_expense (p : ExpensePlanner) (description : String) (amount : ℚ)
    (category : Category) (expense_date : PyDate) (today : PyDate) (newId : String) :
    Except String String × ExpensePlanner :=
  match Expense.make description amount category expense_date today newId with
  | .error e => (.error e, p)
  | .ok exp => (.ok exp.id, { p with _expenses := p._expenses ++ [exp] })

/-- Method `remove_expense`: raise on empty id, else keep the expenses whose id
differs and report whether the list shrank. -/
def remove_expense (p : ExpensePlanner) (expense_id : String) :
    Except String Bool × ExpensePlanner :=
  if expense_id = "" then (.error "Expense ID cannot be empty", p)
  else
    let remaining := p._expenses.filter (fun exp => decide (exp.id ≠ expense_id))
    (.ok (decide (remaining.length < p._expenses.length)), { p with _expenses := remaining })

/-- Method `set_monthly_budget`. -/
def set_monthly_budget (p : ExpensePlanner) (budget : ℚ) :
    Except String Unit × ExpensePlanner :=
  if budget < 0 then (.error "Budget cannot be negative", p)
  else (.ok (), { p with _monthly_budget := budget })

/-- Method `set_category_budget` (the `isinstance` check is enforced by typing). -/
def set_category_budget (p : ExpensePlanner) (category : Category) (budget : ℚ) :
    Except String Unit × ExpensePlanner :=
  if budget < 0 then (.error "Budget cannot be negative", p)
  else (.ok (), { p with _category_budgets :=
    fun c => if c = category then budget else p._category_budgets c })

/-- The loop condition `start_date <= expense.date <= end_date`. -/
def inRange (s e : PyDate) (exp : Expense) : Bool :=
  PyDate.ble s exp.date && PyDate.ble exp.date e

/-- Method `get_total_expenses`: the `None` bounds are modelled by `Option` (a real
`date` is always truthy in Python, so `not start_date` detects exactly
`None`); then the inverted-range check, then the accumulation loop. -/
def get_total_expenses (p : ExpensePlanner) (start_date end_date : Option PyDate) :
    Except String ℚ × ExpensePlanner :=
  match start_date, end_date with
  | none, _ => (.error "Dates cannot be None", p)
  | _, none => (.error "Dates cannot be None", p)
  | some s, some e =>
    if PyDate.blt e s then (.error "Start date cannot be after end date", p)
    else
      (.ok (p._expenses.foldl
        (fun total exp => if inRange s e exp then total + exp.amount else total) 0), p)

/-- Method `get_expenses_by_category` (the `isinstance` check is enforced by typing). -/
def get_expenses_by_category (p : ExpensePlanner) (category : Category) :
    Except String (List Expense) × ExpensePlanner :=
  (.ok (p._expenses.filter (fun exp => decide (exp.category = category))), p)

/-- Method `get_remaining_monthly_budget`: month-range check, `date(year, month, 1)`,
the month-end computation (`date(year, 12, 31)` for December, otherwise
`date(year, month + 1, 1).replace(day=day - 1)`), then
`monthly_budget - get_total_expenses(start, end)`. -/
def get_remaining_monthly_budget (p : ExpensePlanner) (year month : Nat) :
    Except String ℚ × ExpensePlanner :=
  if ¬ (1 ≤ month ∧ month ≤ 12) then (.error "Month must be between 1 and 12", p)
  else
    match mkPyDate year month 1 with
    | .error e => (.error e, p)
    | .ok start_date =>
      let endRes : Except String PyDate :=
        if month = 12 then mkPyDate year month 31
        else
          match mkPyDate year (month + 1) 1 with
          | .error e => .error e
          | .ok d1 => d1.replaceDay (d1.day - 1)
      match endRes with
      | .error e => (.error e, p)
      | .ok end_date =>
        match get_total_expenses p (some start_date) (some end_date) with
        | (.error e, _) => (.error e, p)
        | (.ok total, _) => (.ok (p._monthly_budget - total), p)

/-- Method `is_category_budget_exceeded`: a `0.0` budget is an "unset" sentinel; else
compare the category's all-time spend against the budget. -/
def is_category_budget_exceeded (p : ExpensePlanner) (category : Category) :
    Except String Bool × ExpensePlanner :=
  let category_budget := p._category_budgets category
  if category_budget = 0 then (.ok false, p)
  else
    match get_expenses_by_category p category with
    | (.error e, _) => (.error e, p)
    | (.ok category_expenses, _) =>
      (.ok (decide ((category_expenses.map Expense.amount).sum > category_budget)), p)

/-- Dict assignment `statistics[cat] = statistics.get(cat, 0.0) + amount` on an
insertion-ordered dict: update in place if the key exists, append otherwise. -/
def statUpdate : List (Category × ℚ) → Category → ℚ → List (Category × ℚ)
  | [], c, a => [(c, a)]
  | (c', v) :: rest, c, a =>
    if c' = c then (c', v + a) :: rest else (c', v) :: statUpdate rest c a

/-- Dict lookup on the association-list model. -/
def statLookup (c : Category) : List (Category × ℚ) → Option ℚ
  | [] => none
  | (c', v) :: rest => if c' = c then some v else statLookup c rest

/-- Sum of the dict's values. -/
def statValues (stats : List (Category × ℚ)) : ℚ :=
  (stats.map Prod.snd).sum

/-- The loop body of `get_category_statistics`. -/
def statsStep (s e : PyDate) (statistics : List (Category × ℚ)) (exp : Expense) :
    List (Category × ℚ) :=
  if inRange s e exp then statUpdate statistics exp.category exp.amount else statistics

/-- Method `get_category_statistics`: the `None` check (no ordering check, unlike
`get_total_expenses`), then the accumulation loop over the expense list. -/
def get_category_statistics (p : ExpensePlanner) (start_date end_date : Option PyDate) :
    Except String (List (Category × ℚ)) × ExpensePlanner :=
  match start_date, end_date with
  | none, _ => (.error "Dates cannot be None", p)
  | _, none => (.error "Dates cannot be None", p)
  | some s, some e => (.ok (p._expenses.foldl (statsStep s e) []), p)

/-- Method `get_top_expenses`: positive-limit check, then Python's stable
`sorted(..., key=lambda x: x.amount, reverse=True)` (modelled by the stable
`List.mergeSort` for the "amount not below" relation) truncated to `limit`. -/
def get_top_expenses (p : ExpensePlanner) (limit : Int) :
    Except String (List Expense) × ExpensePlanner :=
  if limit ≤ 0 then (.error "Limit must be positive", p)
  else
    let sorted_expenses := p._expenses.mergeSort (fun x y => decide (y.amount ≤ x.amount))
    (.ok (sorted_expenses.take limit.toNat), p)

/-- The record returned by `get_expenses_summary`. -/
structure Summary where
  total_expenses : ℚ
  expense_count : Nat
  average_expense : ℚ
  monthly_budget : ℚ
  category_budgets : Category → ℚ

/-- Method `get_expenses_summary`: totals, count, average (0 on an empty list),
monthly budget and a copy of the category-budget map. -/
def get_expenses_summary (p : ExpensePlanner) : Except String Summary × ExpensePlanner :=
  let total_expenses := (p._expenses.map Expense.amount).sum
  let avg_expense : ℚ :=
    if p._expenses ≠ [] then total_expenses / (p._expenses.length : ℚ) else 0
  (.ok { total_expenses := total_expenses,
         expense_count := p._expenses.length,
         average_expense := avg_expense,
         monthly_budget := p._monthly_budget,
         category_budgets := p._category_budgets }, p)

/-- The `expenses` property (returns `self._expenses.copy()`; copying is
value semantics here). -/
def expenses (p : ExpensePlanner) : List Expense × ExpensePlanner :=
  (p._expenses, p)

/-- The `monthly_budget` property. -/
def monthly_budget (p : ExpensePlanner) : ℚ × ExpensePlanner :=
  (p._monthly_budget, p)

/-- Method `get_category_budget` (no validation; the map is total over the enum). -/
def get_category_budget (p : ExpensePlanner) (category : Category) :
    ℚ × ExpensePlanner :=
  (p._category_budgets category, p)

/-! Concrete states used to evaluate the operations on sample inputs. -/

/-- Sample expense of 300.0 dated 2024-05-10. -/
def mayExpense : Expense :=
  { id := "m1", description := "Groceries", amount := 300, category := .food,
    date := ⟨2024, 5, 10⟩ }

/-- Sample expense of 300.0 dated 2024-12-10. -/
def decExpense : Expense :=
  { id := "d1", description := "Gifts", amount := 300, category := .other,
    date := ⟨2024, 12, 10⟩ }

/-- Planner with monthly budget 1500.0 and one 300.0 expense in May 2024 and
one in December 2024. -/
def c1Planner : ExpensePlanner :=
  { _expenses := [mayExpense, decExpense], _category_budgets := fun _ => 0,
    _monthly_budget := 1500 }

/-- Planner with three expenses of amounts 10.0, 100.0 and 50.0. -/
def topPlanner : ExpensePlanner :=
  { _expenses :=
      [{ id := "t1", description := "Small", amount := 10, category := .other,
         date := ⟨2024, 5, 1⟩ },
       { id := "t2", description := "Large", amount := 100, category := .other,
         date := ⟨2024, 5, 1⟩ },
       { id := "t3", description := "Medium", amount := 50, category := .other,
         date := ⟨2024, 5, 1⟩ }],
    _category_budgets := fun _ => 0, _monthly_budget := 0 }

/-- Planner with food budget 100.0, food spend 80.0 + 30.0, and a huge
transport expense while the transport budget is the 0.0 sentinel. -/
def budgetPlanner : ExpensePlanner :=
  { _expenses :=
      [{ id := "b1", description := "Groceries", amount := 80, category := .food,
         date := ⟨2024, 5, 1⟩ },
       { id := "b2", description := "Restaurant", amount := 30, category := .food,
         date := ⟨2024, 5, 2⟩ },
       { id := "b3", description := "Plane", amount := 1000000, category := .transport,
         date := ⟨2024, 5, 3⟩ }],
    _category_budgets := fun c => if c = .food then 100 else 0,
    _monthly_budget := 0 }

/-- Sample expense with id "a". -/
def expA : Expense :=
  { id := "a", description := "Lunch", amount := 25, category := .food,
    date := ⟨2024, 5, 1⟩ }

/-- Sample expense with id "b". -/
def expB : Expense :=
  { id := "b", description := "Bus", amount := 5, category := .transport,
    date := ⟨2024, 5, 1⟩ }

/-- Planner holding the two sample expenses with ids "a" and "b". -/
def removePlanner : ExpensePlanner :=
  { _expenses := [expA, expB], _category_budgets := fun _ => 0, _monthly_budget := 0 }

/-! Auxiliary lemmas about the date order, the accumulation loops and the
association-list model of the statistics dict. -/

/-- Date `<=` is reflexive. -/
theorem PyDate.ble_refl (d : PyDate) : PyDate.ble d d = true := by
  simp [PyDate.ble]

/-- Date `<` is irreflexive. -/
theorem PyDate.blt_irrefl (d : PyDate) : PyDate.blt d d = false := by
  simp [PyDate.blt]

/-- The accumulation loop of `get_total_expenses` computes the sum of the
amounts of the in-range expenses. -/
theorem foldl_total (s e : PyDate) (l : List Expense) (init : ℚ) :
    l.foldl (fun total exp => if inRange s e exp then total + exp.amount else total) init
      = init + ((l.filter (inRange s e)).map Expense.amount).sum := by
  induction l generalizing init with
  | nil => simp
  | cons x xs ih =>
    cases h : inRange s e x
    · simp [List.foldl_cons, h, ih, List.filter_cons]
    · simp [List.foldl_cons, h, ih, List.filter_cons, add_assoc]

/-- Looking a key up after a `statUpdate`. -/
theorem statLookup_statUpdate (k c : Category) (a : ℚ) (stats : List (Category × ℚ)) :
    statLookup k (statUpdate stats c a) =
      if c = k then some ((statLookup k stats).getD 0 + a) else statLookup k stats := by
  induction stats with
  | nil => by_cases h : c = k <;> simp [statUpdate, statLookup, h]
  | cons hd tl ih =>
    obtain ⟨c', v⟩ := hd
    by_cases h1 : c' = c
    · subst h1
      by_cases h2 : c' = k <;> simp [statUpdate, statLookup, h2]
    · by_cases h2 : c' = k
      · subst h2
        have hck : ¬ (c = c') := fun h => h1 h.symm
        simp [statUpdate, statLookup, h1, hck]
      · simp [statUpdate, statLookup, h1, h2, ih]

/-- A `statUpdate` adds its amount to the dict's value total. -/
theorem statValues_statUpdate (c : Category) (a : ℚ) (stats : List (Category × ℚ)) :
    statValues (statUpdate stats c a) = statValues stats + a := by
  induction stats with
  | nil => simp [statUpdate, statValues]
  | cons hd tl ih =>
    obtain ⟨c', v⟩ := hd
    by_cases h : c' = c
    · simp [statUpdate, statValues, h]
      ring
    · simp only [statUpdate, if_neg h, statValues, List.map_cons, List.sum_cons] at ih ⊢
      rw [ih]
      ring

/-- Value accumulated for a key by the statistics loop. -/
theorem statLookup_getD_foldl (s e : PyDate) (k : Category) (l : List Expense) :
    ∀ acc : List (Category × ℚ),
      (statLookup k (l.foldl (statsStep s e) acc)).getD 0 =
        (statLookup k acc).getD 0 +
          ((l.filter (fun exp => inRange s e exp && decide (exp.category = k))).map
              Expense.amount).sum := by
  induction l with
  | nil => intro acc; simp
  | cons x xs ih =>
    intro acc
    cases hr : inRange s e x
    · have hstep : statsStep s e acc x = acc := by simp [statsStep, hr]
      simp [List.foldl_cons, hstep, List.filter_cons, hr, ih]
    · have hstep : statsStep s e acc x = statUpdate acc x.category x.amount := by
        simp [statsStep, hr]
      by_cases hc : x.category = k
      · rw [List.foldl_cons, hstep, ih, statLookup_statUpdate]
        simp [hc, List.filter_cons, hr, add_assoc]
      · rw [List.foldl_cons, hstep, ih, statLookup_statUpdate]
        simp [hc, List.filter_cons, hr]

/-- Presence of a key after the statistics loop. -/
theorem statLookup_isSome_foldl (s e : PyDate) (k : Category) (l : List Expense) :
    ∀ acc : List (Category × ℚ),
      (statLookup k (l.foldl (statsStep s e) acc)).isSome =
        ((statLookup k acc).isSome ||
          l.any (fun exp => inRange s e exp && decide (exp.category = k))) := by
  induction l with
  | nil => intro acc; simp
  | cons x xs ih =>
    intro acc
    cases hr : inRange s e x
    · have hstep : statsStep s e acc x = acc := by simp [statsStep, hr]
      simp [List.foldl_cons, hstep, List.any_cons, hr, ih]
    · have hstep : statsStep s e acc x = statUpdate acc x.category x.amount := by
        simp [statsStep, hr]
      rw [List.foldl_cons, hstep, ih, statLookup_statUpdate]
      by_cases hc : x.category = k
      · simp [hc, List.any_cons, hr]
      · simp [hc, List.any_cons, hr]

/-- Total of the dict's values after the statistics loop. -/
theorem statValues_foldl (s e : PyDate) (l : List Expense) :
    ∀ acc : List (Category × ℚ),
      statValues (l.foldl (statsStep s e) acc) =
        statValues acc + ((l.filter (inRange s e)).map Expense.amount).sum := by
  induction l with
  | nil => intro acc; simp
  | cons x xs ih =>
    intro acc
    cases hr : inRange s e x
    · have hstep : statsStep s e acc x = acc := by simp [statsStep, hr]
      simp [List.foldl_cons, hstep, List.filter_cons, hr, ih]
    · have hstep : statsStep s e acc x = statUpdate acc x.category x.amount := by
        simp [statsStep, hr]
      rw [List.foldl_cons, hstep, ih, statValues_statUpdate]
      simp [List.filter_cons, hr]
      ring

/-! Theorems settling the claims. -/

/-- C3: `get_total_expenses(start, end)` fails with the missing-date
`ValidationError` when either bound is absent and with the range-inverted
`ValidationError` when start > end; otherwise it returns the sum of amounts of
all stored expenses whose date d satisfies start ≤ d ≤ end, and returns 0 when
no expense matches. The state is returned unchanged in every case. -/
theorem get_total_expenses_spec (p : ExpensePlanner) (sd ed : Option PyDate) :
    ((sd = none ∨ ed = none) →
       get_total_expenses p sd ed = (.error "Dates cannot be None", p)) ∧
    (∀ s e, sd = some s → ed = some e →
      (PyDate.blt e s = true →
         get_total_expenses p sd ed = (.error "Start date cannot be after end date", p)) ∧
      (PyDate.blt e s = false →
         get_total_expenses p sd ed =
           (.ok (((p._expenses.filter (inRange s e)).map Expense.amount).sum), p) ∧
         ((∀ exp ∈ p._expenses, inRange s e exp = false) →
            get_total_expenses p sd ed = (.ok 0, p)))) := by
  constructor
  · rintro (rfl | rfl)
    · cases ed <;> rfl
    · cases sd <;> rfl
  · rintro s e rfl rfl
    constructor
    · intro hgt
      simp [get_total_expenses, hgt]
    · intro hle
      have hval : get_total_expenses p (some s) (some e) =
          (.ok (((p._expenses.filter (inRange s e)).map Expense.amount).sum), p) := by
        simp [get_total_expenses, hle]
        rw [foldl_total]
        simp
      refine ⟨hval, fun hnone => ?_⟩
      have hnil : p._expenses.filter (inRange s e) = [] := by
        rw [List.filter_eq_nil_iff]
        intro a ha
        simp [hnone a ha]
      rw [hval, hnil]
      simp

/-- Closed instance of `get_total_expenses_spec`: the missing-date error, the
inverted-range error, and the zero sum on an empty planner. -/
theorem get_total_expenses_spec_witness :
    get_total_expenses ExpensePlanner.init none (some ⟨2024, 5, 1⟩) =
      (.error "Dates cannot be None", ExpensePlanner.init) ∧
    get_total_expenses ExpensePlanner.init (some ⟨2024, 5, 2⟩) (some ⟨2024, 5, 1⟩) =
      (.error "Start date cannot be after end date", ExpensePlanner.init) ∧
    get_total_expenses ExpensePlanner.init (some ⟨2024, 5, 1⟩) (some ⟨2024, 5, 2⟩) =
      (.ok 0, ExpensePlanner.init) := by
  refine ⟨(get_total_expenses_spec ExpensePlanner.init none (some ⟨2024, 5, 1⟩)).1
      (Or.inl rfl), ?_, ?_⟩
  · exact ((get_total_expenses_spec ExpensePlanner.init (some ⟨2024, 5, 2⟩)
      (some ⟨2024, 5, 1⟩)).2 _ _ rfl rfl).1 (by decide)
  · exact (((get_total_expenses_spec ExpensePlanner.init (some ⟨2024, 5, 1⟩)
      (some ⟨2024, 5, 2⟩)).2 _ _ rfl rfl).2 (by decide)).2
      (by simp [ExpensePlanner.init])

/-- C2: for every pair of non-absent dates, `get_category_statistics(start,
end)` returns normally (no ordering check, even when start > end) and its
result maps exactly the categories having at least one stored expense with
start ≤ date ≤ end — absent otherwise — to the sum of the amounts of those
expenses. -/
theorem get_category_statistics_spec (p : ExpensePlanner) (sd ed : PyDate) :
    ∃ stats,
      get_category_statistics p (some sd) (some ed) = (.ok stats, p) ∧
      (∀ c, (statLookup c stats).isSome = true ↔
         ∃ exp, exp ∈ p._expenses ∧ inRange sd ed exp = true ∧ exp.category = c) ∧
      (∀ c v, statLookup c stats = some v ↔
         ((∃ exp, exp ∈ p._expenses ∧ inRange sd ed exp = true ∧ exp.category = c) ∧
          v = ((p._expenses.filter
                  (fun exp => inRange sd ed exp && decide (exp.category = c))).map
                Expense.amount).sum)) := by
  refine ⟨p._expenses.foldl (statsStep sd ed) [], rfl, ?_, ?_⟩
  · intro c
    rw [statLookup_isSome_foldl]
    simp [statLookup, List.any_eq_true, and_assoc]
  · intro c v
    constructor
    · intro hv
      have hsome : (statLookup c (p._expenses.foldl (statsStep sd ed) [])).isSome = true := by
        rw [hv]; rfl
      rw [statLookup_isSome_foldl] at hsome
      simp only [statLookup, Option.isSome_none, Bool.false_or, List.any_eq_true,
        Bool.and_eq_true, decide_eq_true_eq] at hsome
      refine ⟨by tauto, ?_⟩
      have := statLookup_getD_foldl sd ed c p._expenses []
      rw [hv] at this
      simpa [statLookup] using this
    · rintro ⟨hex, rfl⟩
      have hsome : (statLookup c (p._expenses.foldl (statsStep sd ed) [])).isSome = true := by
        rw [statLookup_isSome_foldl]
        simp only [statLookup, Option.isSome_none, Bool.false_or, List.any_eq_true,
          Bool.and_eq_true, decide_eq_true_eq]
        tauto
      obtain ⟨w, hw⟩ := Option.isSome_iff_exists.mp hsome
      have := statLookup_getD_foldl sd ed c p._expenses []
      rw [hw] at this ⊢
      simp only [statLookup, Option.getD_some, Option.getD_none] at this
      rw [show w = (statLookup c ([] : List (Category × ℚ))).getD 0 +
        ((p._expenses.filter
            (fun exp => inRange sd ed exp && decide (exp.category = c))).map
          Expense.amount).sum from by simpa [statLookup] using this]
      simp [statLookup]

/-- C4: for every planner state and every single day d,
`get_total_expenses(d, d)` equals the sum of the values of the mapping
returned by `get_category_statistics(d, d)`. -/
theorem get_total_matches_statistics (p : ExpensePlanner) (d : PyDate) :
    ∃ t stats,
      get_total_expenses p (some d) (some d) = (.ok t, p) ∧
      get_category_statistics p (some d) (some d) = (.ok stats, p) ∧
      t = statValues stats := by
  refine ⟨((p._expenses.filter (inRange d d)).map Expense.amount).sum,
    p._expenses.foldl (statsStep d d) [], ?_, rfl, ?_⟩
  · simp [get_total_expenses, PyDate.blt_irrefl]
    rw [foldl_total]
    simp
  · rw [statValues_foldl]
    simp [statValues]

/-- The comparator given to the stable sort is transitive. -/
theorem amountGe_trans : ∀ a b c : Expense,
    decide (b.amount ≤ a.amount) = true → decide (c.amount ≤ b.amount) = true →
    decide (c.amount ≤ a.amount) = true := by
  intro a b c h1 h2
  simp only [decide_eq_true_eq] at h1 h2 ⊢
  exact le_trans h2 h1

/-- The comparator given to the stable sort is total. -/
theorem amountGe_total : ∀ a b : Expense,
    (decide (b.amount ≤ a.amount) || decide (a.amount ≤ b.amount)) = true := by
  intro a b
  simp only [Bool.or_eq_true, decide_eq_true_eq]
  exact le_total b.amount a.amount

/-- Stability of the sort: the equal-amount expenses of the sorted list are
exactly those of the input, in the same relative order. -/
theorem filter_amount_mergeSort (l : List Expense) (a : ℚ) :
    (l.mergeSort (fun x y => decide (y.amount ≤ x.amount))).filter
        (fun exp => decide (exp.amount = a)) =
      l.filter (fun exp => decide (exp.amount = a)) := by
  have hself : (l.filter (fun exp => decide (exp.amount = a))).filter
      (fun exp => decide (exp.amount = a)) =
      l.filter (fun exp => decide (exp.amount = a)) := by
    rw [List.filter_eq_self]
    intro x hx
    exact (List.mem_filter.mp hx).2
  have hpw : List.Pairwise (fun x y : Expense => decide (y.amount ≤ x.amount) = true)
      (l.filter (fun exp => decide (exp.amount = a))) := by
    refine List.pairwise_of_forall_mem_list ?_
    intro x hx y hy
    have hxa : x.amount = a := of_decide_eq_true (List.mem_filter.mp hx).2
    have hya : y.amount = a := of_decide_eq_true (List.mem_filter.mp hy).2
    simp [hxa, hya]
  have hsub : (l.filter (fun exp => decide (exp.amount = a))).Sublist
      (l.mergeSort (fun x y => decide (y.amount ≤ x.amount))) :=
    List.sublist_mergeSort amountGe_trans amountGe_total hpw (List.filter_sublist l)
  have hsub2 : (l.filter (fun exp => decide (exp.amount = a))).Sublist
      ((l.mergeSort (fun x y => decide (y.amount ≤ x.amount))).filter
        (fun exp => decide (exp.amount = a))) := by
    have := List.Sublist.filter (fun exp => decide (exp.amount = a)) hsub
    rwa [hself] at this
  have hlen : ((l.mergeSort (fun x y => decide (y.amount ≤ x.amount))).filter
      (fun exp => decide (exp.amount = a))).length =
      (l.filter (fun exp => decide (exp.amount = a))).length :=
    ((List.mergeSort_perm l _).filter _).length_eq
  exact (hsub2.eq_of_length hlen.symm).symm

/-- C5: `get_top_expenses(limit)` fails with the non-positive-limit
`ValidationError` when limit ≤ 0; otherwise it returns a sequence of length
min(limit, number of stored expenses), non-increasing by amount, with
equal-amount expenses kept in their original relative insertion order, and
when fewer than limit expenses exist it returns all of them. -/
theorem get_top_expenses_spec (p : ExpensePlanner) (limit : Int) :
    (limit ≤ 0 → get_top_expenses p limit = (.error "Limit must be positive", p)) ∧
    (0 < limit → ∃ l,
       get_top_expenses p limit = (.ok l, p) ∧
       l.length = min limit.toNat p._expenses.length ∧
       List.Pairwise (fun a b : Expense => b.amount ≤ a.amount) l ∧
       (∀ a : ℚ, (l.filter (fun exp => decide (exp.amount = a))).Sublist
          (p._expenses.filter (fun exp => decide (exp.amount = a)))) ∧
       (p._expenses.length ≤ limit.toNat → l.Perm p._expenses)) := by
  constructor
  · intro h
    simp [get_top_expenses, h]
  · intro h
    have hne : ¬ (limit ≤ 0) := not_le.mpr h
    refine ⟨(p._expenses.mergeSort (fun x y => decide (y.amount ≤ x.amount))).take limit.toNat,
      by simp [get_top_expenses, hne], ?_, ?_, ?_, ?_⟩
    · simp [List.length_take, List.length_mergeSort]
    · have hs := List.sorted_mergeSort amountGe_trans amountGe_total p._expenses
      have hpw := List.Pairwise.sublist (List.take_sublist limit.toNat
        (p._expenses.mergeSort (fun x y => decide (y.amount ≤ x.amount)))) hs
      exact hpw.imp (fun hd => by simpa using hd)
    · intro a
      have htake := List.Sublist.filter (fun exp => decide (exp.amount = a))
        (List.take_sublist limit.toNat
          (p._expenses.mergeSort (fun x y => decide (y.amount ≤ x.amount))))
      rwa [filter_amount_mergeSort] at htake
    · intro hlen
      rw [List.take_of_length_le (by rw [List.length_mergeSort]; exact hlen)]
      exact List.mergeSort_perm _ _

/-- Closed instance of `get_top_expenses_spec`: the non-positive-limit error
and the top-2 of a 3-expense planner. -/
theorem get_top_expenses_spec_witness :
    get_top_expenses topPlanner 0 = (.error "Limit must be positive", topPlanner) ∧
    ∃ l, get_top_expenses topPlanner 2 = (.ok l, topPlanner) ∧ l.length = 2 := by
  refine ⟨(get_top_expenses_spec topPlanner 0).1 (by decide), ?_⟩
  obtain ⟨l, h1, h2, -, -, -⟩ := (get_top_expenses_spec topPlanner 2).2 (by decide)
  exact ⟨l, h1, by simpa [topPlanner] using h2⟩

/-- C6: `is_category_budget_exceeded(category)` returns false whenever that
category's stored budget equals 0.0, regardless of spend; when the budget is
nonzero it returns true if and only if the all-time sum of the amounts of that
category's expenses strictly exceeds the budget. -/
theorem is_category_budget_exceeded_spec (p : ExpensePlanner) (category : Category) :
    (p._category_budgets category = 0 →
       is_category_budget_exceeded p category = (.ok false, p)) ∧
    (p._category_budgets category ≠ 0 → ∃ b,
       is_category_budget_exceeded p category = (.ok b, p) ∧
       (b = true ↔
         ((p._expenses.filter (fun exp => decide (exp.category = category))).map
             Expense.amount).sum > p._category_budgets category)) := by
  constructor
  · intro h
    simp [is_category_budget_exceeded, h]
  · intro h
    exact ⟨decide (((p._expenses.filter (fun exp => decide (exp.category = category))).map
        Expense.amount).sum > p._category_budgets category),
      by simp [is_category_budget_exceeded, get_expenses_by_category, h],
      by simp⟩

/-- Closed instance of `is_category_budget_exceeded_spec`: a 0.0 transport
budget with a 1000000.0 transport expense reports false, and a 100.0 food
budget with 110.0 of food spend reports true. -/
theorem is_category_budget_exceeded_spec_witness :
    is_category_budget_exceeded budgetPlanner .transport = (.ok false, budgetPlanner) ∧
    ∃ b, is_category_budget_exceeded budgetPlanner .food = (.ok b, budgetPlanner) ∧
      b = true := by
  refine ⟨(is_category_budget_exceeded_spec budgetPlanner .transport).1 (by simp [budgetPlanner]), ?_⟩
  obtain ⟨b, h1, h2⟩ :=
    (is_category_budget_exceeded_spec budgetPlanner .food).2 (by norm_num [budgetPlanner])
  refine ⟨b, h1, h2.mpr ?_⟩
  simp [budgetPlanner]
  norm_num

/-- C7: for every valid input tuple (non-empty non-whitespace description,
amount > 0, category of the enum, date not after today) and a fresh non-empty
id from the generator, `add_expense` succeeds, appends exactly one entry whose
fields match the inputs (description trimmed, the rest verbatim) with a
non-empty id distinct from all prior ids, and returns that id. -/
theorem add_expense_valid (p : ExpensePlanner) (description : String) (amount : ℚ)
    (category : Category) (expense_date today : PyDate) (newId : String)
    (hdesc : pyStrip description ≠ "") (hamt : 0 < amount)
    (hdate : PyDate.blt today expense_date = false)
    (hfresh : newId ≠ "" ∧ ∀ exp ∈ p._expenses, exp.id ≠ newId) :
    ∃ exp : Expense,
      add_expense p description amount category expense_date today newId =
        (.ok newId, { p with _expenses := p._expenses ++ [exp] }) ∧
      exp.id = newId ∧ exp.description = pyStrip description ∧ exp.amount = amount ∧
      exp.category = category ∧ exp.date = expense_date ∧
      (expenses { p with _expenses := p._expenses ++ [exp] }).1 = p._expenses ++ [exp] ∧
      exp.id ≠ "" ∧ (∀ prev ∈ p._expenses, prev.id ≠ exp.id) := by
  have hd : ¬ (description = "" ∨ pyStrip description = "") := by
    rintro (h | h)
    · apply hdesc
      rw [h]
      rfl
    · exact hdesc h
  have hneg : ¬ (amount ≤ 0) := not_le.mpr hamt
  refine ⟨⟨newId, pyStrip description, amount, category, expense_date⟩,
    ?_, rfl, rfl, rfl, rfl, rfl, rfl, hfresh.1, fun prev hm => hfresh.2 prev hm⟩
  simp [add_expense, Expense.make, hd, hneg, hdate]

/-- Closed instance of `add_expense_valid`: adding " Lunch " for 100.0 to an
empty planner returns the fresh id. -/
theorem add_expense_valid_witness :
    (add_expense ExpensePlanner.init " Lunch " 100 Category.food ⟨2024, 5, 1⟩
      ⟨2024, 5, 1⟩ "uuid-1").1 = .ok "uuid-1" := by
  obtain ⟨exp, h, -⟩ := add_expense_valid ExpensePlanner.init " Lunch " 100 Category.food
    ⟨2024, 5, 1⟩ ⟨2024, 5, 1⟩ "uuid-1" (by decide) (by norm_num) (by decide)
    ⟨by decide, by simp [ExpensePlanner.init]⟩
  rw [h]

/-- C8: `add_expense` (via the `Expense` constructor) raises a
`ValidationError` if and only if the description is empty or all-whitespace,
the amount is ≤ 0, or the expense date is strictly after the current date
(the invalid-category case is excluded by the `Category` type), each with its
own distinct message, and on any failure the expense collection — the whole
planner state — is left unchanged. -/
theorem add_expense_fail_iff (p : ExpensePlanner) (description : String) (amount : ℚ)
    (category : Category) (expense_date today : PyDate) (newId : String) :
    ((∃ msg, (add_expense p description amount category expense_date today newId).1 =
        .error msg) ↔
      (pyStrip description = "" ∨ amount ≤ 0 ∨ PyDate.blt today expense_date = true)) ∧
    (pyStrip description = "" →
      add_expense p description amount category expense_date today newId =
        (.error "Description cannot be empty", p)) ∧
    (pyStrip description ≠ "" → amount ≤ 0 →
      add_expense p description amount category expense_date today newId =
        (.error "Amount must be positive", p)) ∧
    (pyStrip description ≠ "" → ¬ (amount ≤ 0) → PyDate.blt today expense_date = true →
      add_expense p description amount category expense_date today newId =
        (.error "Expense date cannot be in the future", p)) ∧
    (∀ msg, (add_expense p description amount category expense_date today newId).1 =
        .error msg →
      (add_expense p description amount category expense_date today newId).2 = p) := by
  have hiff : (description = "" ∨ pyStrip description = "") ↔ pyStrip description = "" :=
    ⟨fun h => h.elim (fun h => by rw [h]; rfl) id, Or.inr⟩
  refine ⟨?_, ?_, ?_, ?_, ?_⟩
  · constructor
    · rintro ⟨msg, hmsg⟩
      by_cases h1 : pyStrip description = ""
      · exact Or.inl h1
      by_cases h2 : amount ≤ 0
      · exact Or.inr (Or.inl h2)
      by_cases h3 : PyDate.blt today expense_date = true
      · exact Or.inr (Or.inr h3)
      exfalso
      have hd : ¬ (description = "" ∨ pyStrip description = "") := fun h => h1 (hiff.mp h)
      have h3f : PyDate.blt today expense_date = false := by
        cases hb : PyDate.blt today expense_date
        · rfl
        · exact absurd hb h3
      simp [add_expense, Expense.make, hd, h2, h3f] at hmsg
    · rintro (h1 | h2 | h3)
      · exact ⟨"Description cannot be empty",
          by simp [add_expense, Expense.make, hiff.mpr h1]⟩
      · by_cases h1 : pyStrip description = ""
        · exact ⟨"Description cannot be empty",
            by simp [add_expense, Expense.make, hiff.mpr h1]⟩
        · have hd : ¬ (description = "" ∨ pyStrip description = "") :=
            fun h => h1 (hiff.mp h)
          exact ⟨"Amount must be positive", by simp [add_expense, Expense.make, hd, h2]⟩
      · by_cases h1 : pyStrip description = ""
        · exact ⟨"Description cannot be empty",
            by simp [add_expense, Expense.make, hiff.mpr h1]⟩
        by_cases h2 : amount ≤ 0
        · have hd : ¬ (description = "" ∨ pyStrip description = "") :=
            fun h => h1 (hiff.mp h)
          exact ⟨"Amount must be positive", by simp [add_expense, Expense.make, hd, h2]⟩
        · have hd : ¬ (description = "" ∨ pyStrip description = "") :=
            fun h => h1 (hiff.mp h)
          exact ⟨"Expense date cannot be in the future",
            by simp [add_expense, Expense.make, hd, h2, h3]⟩
  · intro h1
    simp [add_expense, Expense.make, hiff.mpr h1]
  · intro h1 h2
    have hd : ¬ (description = "" ∨ pyStrip description = "") := fun h => h1 (hiff.mp h)
    simp [add_expense, Expense.make, hd, h2]
  · intro h1 h2 h3
    have hd : ¬ (description = "" ∨ pyStrip description = "") := fun h => h1 (hiff.mp h)
    simp [add_expense, Expense.make, hd, h2, h3]
  · intro msg hmsg
    rcases hmk : Expense.make description amount category expense_date today newId with e | exp
    · simp [add_expense, hmk]
    · rw [add_expense, hmk] at hmsg
      exact absurd hmsg (by simp)

/-- Closed instance of `add_expense_fail_iff`: the three failure modes, each
with its distinct message and the planner unchanged. -/
theorem add_expense_fail_iff_witness :
    add_expense ExpensePlanner.init "   " 100 Category.food ⟨2024, 5, 1⟩
      ⟨2024, 5, 1⟩ "u" = (.error "Description cannot be empty", ExpensePlanner.init) ∧
    add_expense ExpensePlanner.init "Lunch" (-5) Category.food ⟨2024, 5, 1⟩
      ⟨2024, 5, 1⟩ "u" = (.error "Amount must be positive", ExpensePlanner.init) ∧
    add_expense ExpensePlanner.init "Lunch" 100 Category.food ⟨2024, 5, 2⟩
      ⟨2024, 5, 1⟩ "u" = (.error "Expense date cannot be in the future", ExpensePlanner.init) := by
  refine ⟨(add_expense_fail_iff ExpensePlanner.init "   " 100 Category.food ⟨2024, 5, 1⟩
      ⟨2024, 5, 1⟩ "u").2.1 (by decide), ?_, ?_⟩
  · exact (add_expense_fail_iff ExpensePlanner.init "Lunch" (-5) Category.food ⟨2024, 5, 1⟩
      ⟨2024, 5, 1⟩ "u").2.2.1 (by decide) (by norm_num)
  · exact (add_expense_fail_iff ExpensePlanner.init "Lunch" 100 Category.food ⟨2024, 5, 2⟩
      ⟨2024, 5, 1⟩ "u").2.2.2.1 (by decide) (by norm_num) (by decide)

/-- C9: `remove_expense(id)` fails with the empty-id `ValidationError` on an
empty id; for an id matching no stored expense it returns false and leaves the
collection unchanged; and (under the generated-id uniqueness invariant) for a
present id the first call returns true and removes exactly that entry, after
which a second call with the same id returns false and changes nothing. -/
theorem remove_expense_spec (p : ExpensePlanner) (expense_id : String) :
    (expense_id = "" →
       remove_expense p expense_id = (.error "Expense ID cannot be empty", p)) ∧
    (expense_id ≠ "" → (∀ exp ∈ p._expenses, exp.id ≠ expense_id) →
       remove_expense p expense_id = (.ok false, p)) ∧
    (expense_id ≠ "" → (p._expenses.map Expense.id).Nodup →
       ∀ target ∈ p._expenses, target.id = expense_id →
       ∃ l1 l2, p._expenses = l1 ++ target :: l2 ∧
         remove_expense p expense_id = (.ok true, { p with _expenses := l1 ++ l2 }) ∧
         remove_expense { p with _expenses := l1 ++ l2 } expense_id =
           (.ok false, { p with _expenses := l1 ++ l2 })) := by
  have habs : ∀ q : ExpensePlanner, expense_id ≠ "" →
      (∀ exp ∈ q._expenses, exp.id ≠ expense_id) →
      remove_expense q expense_id = (.ok false, q) := by
    intro q hne hall
    have hfilter : q._expenses.filter (fun exp => decide (exp.id ≠ expense_id)) =
        q._expenses := by
      rw [List.filter_eq_self]
      intro a ha
      simp [hall a ha]
    simp only [remove_expense, if_neg hne]
    rw [hfilter]
    simp
  refine ⟨fun h => by simp [remove_expense, h], fun hne hall => habs p hne hall, ?_⟩
  · intro hne hnd target hmem hid
    obtain ⟨l1, l2, hl⟩ := List.append_of_mem hmem
    have hnd' := hnd
    rw [hl] at hnd'
    simp only [List.map_append, List.map_cons] at hnd'
    rw [List.nodup_middle] at hnd'
    have hnotmem : target.id ∉ l1.map Expense.id ++ l2.map Expense.id :=
      (List.nodup_cons.mp hnd').1
    have h1 : ∀ exp ∈ l1, exp.id ≠ expense_id := by
      intro exp hexp heq
      apply hnotmem
      have hte : target.id = exp.id := by rw [hid, heq]
      rw [hte]
      exact List.mem_append_left _ (List.mem_map_of_mem Expense.id hexp)
    have h2 : ∀ exp ∈ l2, exp.id ≠ expense_id := by
      intro exp hexp heq
      apply hnotmem
      have hte : target.id = exp.id := by rw [hid, heq]
      rw [hte]
      exact List.mem_append_right _ (List.mem_map_of_mem Expense.id hexp)
    have hfilter : p._expenses.filter (fun exp => decide (exp.id ≠ expense_id)) =
        l1 ++ l2 := by
      rw [hl, List.filter_append, List.filter_cons]
      have ht : decide (target.id ≠ expense_id) = false := by simp [hid]
      rw [ht]
      simp only [Bool.false_eq_true, if_false]
      rw [List.filter_eq_self.mpr (fun a ha => h1 a ha |> fun h => by simp [h]),
          List.filter_eq_self.mpr (fun a ha => h2 a ha |> fun h => by simp [h])]
    have hlen : (l1 ++ l2).length < p._expenses.length := by
      rw [hl]
      simp [List.length_append]
    refine ⟨l1, l2, hl, ?_, ?_⟩
    · simp only [remove_expense, if_neg hne]
      rw [hfilter, decide_eq_true hlen]
    · exact habs { p with _expenses := l1 ++ l2 } hne (by
        intro a ha
        rcases List.mem_append.mp ha with h | h
        · exact h1 a h
        · exact h2 a h)

/-- Closed instance of `remove_expense_spec`: empty-id error, removing a
missing id returns false, removing a present id returns true. -/
theorem remove_expense_spec_witness :
    remove_expense removePlanner "" = (.error "Expense ID cannot be empty", removePlanner) ∧
    remove_expense removePlanner "zzz" = (.ok false, removePlanner) ∧
    (remove_expense removePlanner "a").1 = .ok true := by
  refine ⟨(remove_expense_spec removePlanner "").1 rfl,
    (remove_expense_spec removePlanner "zzz").2.1 (by decide) (by decide), ?_⟩
  obtain ⟨l1, l2, -, h1, -⟩ := (remove_expense_spec removePlanner "a").2.2
    (by decide) (by decide) expA (by decide) (by decide)
  rw [h1]

/-- C10: every read/query operation — `get_total_expenses`,
`get_expenses_by_category`, `get_remaining_monthly_budget`,
`is_category_budget_exceeded`, `get_category_statistics`, `get_top_expenses`,
`get_expenses_summary`, the `expenses` and `monthly_budget` accessors and
`get_category_budget` — leaves the planner state unchanged, whether it returns
normally or raises; in particular `get_top_expenses` sorts a copy, leaving the
stored collection in its original order, and the returned collections are
value copies (immutable Lean values) of the internal state. -/
theorem queries_preserve_state (p : ExpensePlanner) (sd ed : Option PyDate)
    (c : Category) (y m : Nat) (limit : Int) :
    (get_total_expenses p sd ed).2 = p ∧
    (get_expenses_by_category p c).2 = p ∧
    (get_remaining_monthly_budget p y m).2 = p ∧
    (is_category_budget_exceeded p c).2 = p ∧
    (get_category_statistics p sd ed).2 = p ∧
    (get_top_expenses p limit).2 = p ∧
    (get_expenses_summary p).2 = p ∧
    (expenses p).2 = p ∧
    (monthly_budget p).2 = p ∧
    (get_category_budget p c).2 = p ∧
    (expenses p).1 = p._expenses ∧
    (get_top_expenses p limit).2._expenses = p._expenses := by
  have htotal : (get_total_expenses p sd ed).2 = p := by
    rcases sd with - | s <;> rcases ed with - | e
    · rfl
    · rfl
    · rfl
    · by_cases h : PyDate.blt e s = true <;> simp [get_total_expenses, h]
  have hmonthly : (get_remaining_monthly_budget p y m).2 = p := by
    rw [get_remaining_monthly_budget]
    by_cases h : 1 ≤ m ∧ m ≤ 12
    · simp only [h, not_true_eq_false, if_false, ite_false]
      rcases mkPyDate y m 1 with e | startd
      · rfl
      rcases hend : (if m = 12 then mkPyDate y m 31
          else match mkPyDate y (m + 1) 1 with
            | .error e => .error e
            | .ok d1 => d1.replaceDay (d1.day - 1)) with e | endd
      · simp [hend]
      · simp only [hend]
        rcases htot : get_total_expenses p (some startd) (some endd) with ⟨r, q⟩
        rcases r with e | total <;> simp [htot]
    · simp [h]
  have htop : (get_top_expenses p limit).2 = p := by
    by_cases h : limit ≤ 0 <;> simp [get_top_expenses, h]
  refine ⟨htotal, rfl, hmonthly, ?_, ?_, htop, rfl, rfl, rfl, rfl, rfl, by rw [htop]⟩
  · by_cases h : p._category_budgets c = 0 <;>
      simp [is_category_budget_exceeded, get_expenses_by_category, h]
  · rcases sd with - | s <;> rcases ed with - | e <;> rfl

/-- C1 (code bug): for any month from 1 to 11 the month-end computation
`date(year, month + 1, 1).replace(day=0)` raises
`ValueError("day is out of range for month")`, so `get_remaining_monthly_budget`
never reaches the subtraction; only December works. On a planner with monthly
budget 1500.0, a 300.0 expense in May 2024 and a 300.0 expense in December
2024, the May query raises instead of returning 1200.0, while the December
query returns 1200.0 (the May expense correctly excluded). -/
theorem get_remaining_monthly_budget_month_bug :
    get_remaining_monthly_budget c1Planner 2024 5 =
      (.error "day is out of range for month", c1Planner) ∧
    get_remaining_monthly_budget c1Planner 2024 12 = (.ok 1200, c1Planner) := by
  constructor
  · simp [get_remaining_monthly_budget, mkPyDate, daysInMonth, isLeapYear,
      PyDate.replaceDay]
  · simp [get_remaining_monthly_budget, mkPyDate, daysInMonth, isLeapYear,
      PyDate.replaceDay, get_total_expenses, PyDate.blt, PyDate.ble, inRange,
      c1Planner, mayExpense, decExpense]
    norm_num

end Okis
